import Mathlib

/-!
Shallow embedding of the Spec-RAG/ai-server repository (FastAPI serving side
and data pipeline CLIs), with theorems settling the frozen claims about it.

Python sources are embedded as executable Lean functions.  External services
(Redis, the Gemini language model, Pinecone, hashlib) are modelled as explicit
oracle inputs: a language-model call becomes a `String` argument holding the
model's output, the Redis connection becomes an explicit state value threaded
through each operation, and `hashlib.sha256(...).hexdigest()` becomes a
`String → String` component of the environment.
-/

namespace SpecRag

/-! ## JSON values

Redis stores raw strings; the code only ever writes `json.dumps` of Python
dicts (cached answers) or raw uuid tokens (locks).  We model a stored Redis
string at the JSON level: a stored string is represented by the value it
parses to, and a raw non-JSON string (a lock token, which never parses as a
JSON object) by `Json.str`.  `json.loads` followed by the `isinstance(dict)`
check in `get_cached_json` then corresponds to matching on `Json.obj`. -/

inductive Json where
  | null : Json
  | bool (b : Bool) : Json
  | num (n : Int) : Json
  | str (s : String) : Json
  | arr (elems : List Json) : Json
  | obj (fields : List (String × Json)) : Json

/-- Lua `current ~= ARGV[1]` comparison between the value stored at the lock
key and the expected token: the stored value equals the token string exactly
when it is that raw string.  A `json.dumps` of a dict (which starts with a
brace) can never equal a uuid token, so representing those as non-`str`
constructors that compare unequal to every token is faithful. -/
def storedEqToken (v : Option Json) (token : String) : Bool :=
  match v with
  | some (Json.str s) => s == token
  | _ => false

/-! ## Cache & lock backend (src/app/services/redis_service.py)

The Redis connection is modelled as an explicit state: the keyed string
store (at the JSON level, see above), per-key TTLs, and a `healthy` flag
that is `false` when every backend call raises `RedisError`. -/

structure RedisState where
  store : String → Option Json
  ttl : String → Option Nat
  healthy : Bool

def redisGet (st : RedisState) (key : String) : Option Json :=
  st.store key

def redisSetEx (st : RedisState) (key : String) (v : Json) (ttlSec : Nat) : RedisState :=
  { st with
    store := fun k => if k = key then some v else st.store k
    ttl := fun k => if k = key then some ttlSec else st.ttl k }

def redisDel (st : RedisState) (key : String) : RedisState :=
  { st with
    store := fun k => if k = key then none else st.store k
    ttl := fun k => if k = key then none else st.ttl k }

/-- The Lua script of `set_cached_json_if_lock_owner_and_release`
(redis_service.py lines 78-92), run atomically by Redis:
GET the lock key; if it differs from the token return 0 without writing;
otherwise SET the canonical key (and, when ARGV[4] = "1", the raw target)
to the payload with the TTL, DEL the lock key, and return 1. -/
def luaAtomicCommit (st : RedisState) (lockKey canonicalKey rawTarget : String)
    (token : String) (payload : Json) (ttlSec : Nat) (writeRaw : Bool) :
    RedisState × Nat :=
  if storedEqToken (redisGet st lockKey) token = false then
    (st, 0)
  else
    let st1 := redisSetEx st canonicalKey payload ttlSec
    let st2 := if writeRaw then redisSetEx st1 rawTarget payload ttlSec else st1
    let st3 := redisDel st2 lockKey
    (st3, 1)

/-- Python truthiness of the optional `raw_key` argument: `None` and the
empty string are falsy (`write_raw = "1" if raw_key else "0"`). -/
def truthyStrOpt (o : Option String) : Bool :=
  match o with
  | none => false
  | some s => s ≠ ""

inductive CommitOutcome where
  | committed : CommitOutcome
  | ownerMismatch : CommitOutcome
  | backendError : CommitOutcome

/-- `set_cached_json_if_lock_owner_and_release` (redis_service.py lines
62-116).  Returns the new backend state and the Python return value:
`committed` for True, `ownerMismatch` for False, `backendError` for None
(the `except RedisError` path, in which no script ran). -/
def set_cached_json_if_lock_owner_and_release (st : RedisState)
    (lockKey expectedToken canonicalKey : String) (value : Json)
    (ttlSec : Nat) (rawKey : Option String) : RedisState × CommitOutcome :=
  let writeRaw := truthyStrOpt rawKey
  let rawTarget := if truthyStrOpt rawKey then rawKey.getD canonicalKey else canonicalKey
  if st.healthy = false then
    (st, CommitOutcome.backendError)
  else
    let r := luaAtomicCommit st lockKey canonicalKey rawTarget expectedToken value ttlSec writeRaw
    (r.1, if r.2 = 1 then CommitOutcome.committed else CommitOutcome.ownerMismatch)

/-- `get_cached_json` (redis_service.py lines 40-51): on any backend error
return None; on a missing key return None; on a stored value that is not a
JSON object (`isinstance(data, dict)` fails, or `json.loads` raises) return
None; otherwise return the parsed object. -/
def get_cached_json (st : RedisState) (key : String) : Option Json :=
  if st.healthy = false then none
  else
    match st.store key with
    | none => none
    | some (Json.obj fields) => some (Json.obj fields)
    | some _ => none

/-- `acquire_lock` (redis_service.py lines 119-128): SET NX EX with a fresh
uuid token (the token is an input here, uuid generation being external
randomness); returns the token on success, None when the key already exists
or on a backend error. -/
def acquire_lock (st : RedisState) (token : String) (lockKey : String)
    (lockTtlSec : Nat) : RedisState × Option String :=
  if st.healthy = false then (st, none)
  else
    match st.store lockKey with
    | some _ => (st, none)
    | none => (redisSetEx st lockKey (Json.str token) lockTtlSec, some token)

def build_answer_key (pipeVer : String) (qhash : String) : String :=
  "ans:p" ++ pipeVer ++ ":" ++ qhash

def build_lock_key (answerKey : String) : String :=
  "lock:" ++ answerKey

/-- C1: `set_cached_json_if_lock_owner_and_release` is one indivisible step
on the backend state.  If the value stored at `lock_key` differs from
`expected_token`, the state is completely unchanged (no write to
`canonical_key` or `raw_key`, no deletion of `lock_key`) and the result is
owner-mismatch.  If it equals the token, the new state holds `value` with
the given TTL at `canonical_key`, also at `raw_key` when one is supplied
(supplied meaning truthy, i.e. non-empty, as the Python `if raw_key` tests),
and `lock_key` is deleted; the result is committed.  A backend failure
leaves the state unchanged and yields the third, distinct backend-error
outcome.  The key-distinctness hypotheses reflect the callers, where
`lock_key = "lock:" ++ canonical_key` and `raw_key` is an `"ans:p…"` key. -/
theorem C1_commit_atomic (st : RedisState) (lockKey canonicalKey tok : String)
    (value : Json) (ttlSec : Nat) (rawKey : Option String)
    (hlc : lockKey ≠ canonicalKey)
    (hlr : ∀ rk, rawKey = some rk → lockKey ≠ rk) :
    (st.healthy = true → storedEqToken (st.store lockKey) tok = false →
      set_cached_json_if_lock_owner_and_release st lockKey tok canonicalKey value ttlSec rawKey
        = (st, CommitOutcome.ownerMismatch)) ∧
    (st.healthy = true → storedEqToken (st.store lockKey) tok = true →
      (set_cached_json_if_lock_owner_and_release st lockKey tok canonicalKey value ttlSec rawKey).2
          = CommitOutcome.committed ∧
      (set_cached_json_if_lock_owner_and_release st lockKey tok canonicalKey value ttlSec rawKey).1.store
          canonicalKey = some value ∧
      (set_cached_json_if_lock_owner_and_release st lockKey tok canonicalKey value ttlSec rawKey).1.ttl
          canonicalKey = some ttlSec ∧
      (∀ rk, rawKey = some rk → rk ≠ "" →
        (set_cached_json_if_lock_owner_and_release st lockKey tok canonicalKey value ttlSec rawKey).1.store
            rk = some value ∧
        (set_cached_json_if_lock_owner_and_release st lockKey tok canonicalKey value ttlSec rawKey).1.ttl
            rk = some ttlSec) ∧
      (set_cached_json_if_lock_owner_and_release st lockKey tok canonicalKey value ttlSec rawKey).1.store
          lockKey = none) ∧
    (st.healthy = false →
      set_cached_json_if_lock_owner_and_release st lockKey tok canonicalKey value ttlSec rawKey
        = (st, CommitOutcome.backendError)) ∧
    (CommitOutcome.backendError ≠ CommitOutcome.committed ∧
      CommitOutcome.backendError ≠ CommitOutcome.ownerMismatch) := by
  refine ⟨?_, ?_, ?_, by simp, by simp⟩
  · intro hh hmiss
    simp [set_cached_json_if_lock_owner_and_release, luaAtomicCommit, redisGet, hh, hmiss]
  · intro hh hmatch
    rcases rawKey with _ | rk
    · have hres : set_cached_json_if_lock_owner_and_release st lockKey tok canonicalKey value ttlSec none
          = (redisDel (redisSetEx st canonicalKey value ttlSec) lockKey, CommitOutcome.committed) := by
        simp [set_cached_json_if_lock_owner_and_release, luaAtomicCommit, redisGet, hh, hmatch,
          truthyStrOpt]
      rw [hres]
      refine ⟨rfl, ?_, ?_, ?_, ?_⟩
      · simp [redisDel, redisSetEx, Ne.symm hlc]
      · simp [redisDel, redisSetEx, Ne.symm hlc]
      · intro rk hrk; cases hrk
      · simp [redisDel]
    · by_cases hrk0 : rk = ""
      · have hres : set_cached_json_if_lock_owner_and_release st lockKey tok canonicalKey value ttlSec (some rk)
            = (redisDel (redisSetEx st canonicalKey value ttlSec) lockKey, CommitOutcome.committed) := by
          simp [set_cached_json_if_lock_owner_and_release, luaAtomicCommit, redisGet, hh, hmatch,
            truthyStrOpt, hrk0]
        rw [hres]
        refine ⟨rfl, ?_, ?_, ?_, ?_⟩
        · simp [redisDel, redisSetEx, Ne.symm hlc]
        · simp [redisDel, redisSetEx, Ne.symm hlc]
        · intro rk' hrk' hne'
          exact absurd (by rw [← Option.some_inj.mp hrk']; exact hrk0) hne'
        · simp [redisDel]
      · have hlk : lockKey ≠ rk := hlr rk rfl
        have hres : set_cached_json_if_lock_owner_and_release st lockKey tok canonicalKey value ttlSec (some rk)
            = (redisDel (redisSetEx (redisSetEx st canonicalKey value ttlSec) rk value ttlSec) lockKey,
                CommitOutcome.committed) := by
          simp [set_cached_json_if_lock_owner_and_release, luaAtomicCommit, redisGet, hh, hmatch,
            truthyStrOpt, hrk0]
        rw [hres]
        refine ⟨rfl, ?_, ?_, ?_, ?_⟩
        · by_cases hcr : canonicalKey = rk
          · simp [redisDel, redisSetEx, Ne.symm hlc, hcr, Ne.symm hlk]
          · simp [redisDel, redisSetEx, Ne.symm hlc, hcr]
        · by_cases hcr : canonicalKey = rk
          · simp [redisDel, redisSetEx, Ne.symm hlc, hcr, Ne.symm hlk]
          · simp [redisDel, redisSetEx, Ne.symm hlc, hcr]
        · intro rk' hrk' _
          cases Option.some_inj.mp hrk'
          exact ⟨by simp [redisDel, redisSetEx, Ne.symm hlk], by simp [redisDel, redisSetEx, Ne.symm hlk]⟩
        · simp [redisDel]
  · intro hh
    simp [set_cached_json_if_lock_owner_and_release, hh]

/-- Witness for C1 at a concrete backend state: the lock key holds token
"tokA"; committing with that token writes the value to both the canonical
and the raw key and deletes the lock, while committing with the stale token
"tokB" changes nothing and reports owner mismatch. -/
theorem C1_commit_atomic_witness :
    ((set_cached_json_if_lock_owner_and_release
        ⟨fun k => if k = "lock:ans:p1:h" then some (Json.str "tokA") else none,
          fun _ => none, true⟩
        "lock:ans:p1:h" "tokA" "ans:p1:h" (Json.obj [("answer", Json.str "hi")]) 60
        (some "ans:p1:r")).2 = CommitOutcome.committed ∧
      (set_cached_json_if_lock_owner_and_release
        ⟨fun k => if k = "lock:ans:p1:h" then some (Json.str "tokA") else none,
          fun _ => none, true⟩
        "lock:ans:p1:h" "tokA" "ans:p1:h" (Json.obj [("answer", Json.str "hi")]) 60
        (some "ans:p1:r")).1.store "ans:p1:h" = some (Json.obj [("answer", Json.str "hi")])) ∧
    (set_cached_json_if_lock_owner_and_release
        ⟨fun k => if k = "lock:ans:p1:h" then some (Json.str "tokA") else none,
          fun _ => none, true⟩
        "lock:ans:p1:h" "tokB" "ans:p1:h" (Json.obj [("answer", Json.str "hi")]) 60
        (some "ans:p1:r")).2 = CommitOutcome.ownerMismatch := by
  constructor
  · have h := C1_commit_atomic
      ⟨fun k => if k = "lock:ans:p1:h" then some (Json.str "tokA") else none,
        fun _ => none, true⟩
      "lock:ans:p1:h" "ans:p1:h" "tokA" (Json.obj [("answer", Json.str "hi")]) 60
      (some "ans:p1:r") (by decide)
      (by intro rk hrk; cases hrk; decide)
    have h2 := h.2.1 rfl (by rfl)
    exact ⟨h2.1, h2.2.1⟩
  · have h := C1_commit_atomic
      ⟨fun k => if k = "lock:ans:p1:h" then some (Json.str "tokA") else none,
        fun _ => none, true⟩
      "lock:ans:p1:h" "ans:p1:h" "tokB" (Json.obj [("answer", Json.str "hi")]) 60
      (some "ans:p1:r") (by decide)
      (by intro rk hrk; cases hrk; decide)
    have h1 := h.1 rfl (by rfl)
    rw [h1]

/-! ## Python string primitives

The claims exercise ASCII text plus the curly-quote characters, so the
Unicode-dependent Python primitives are modelled char-wise: `str.strip` and
`\s` over the ASCII whitespace characters plus NBSP and the ideographic
space, `str.lower` over ASCII letters, NFKC as the identity outside the two
space-like compatibility characters (every character the code's rules
mention — ASCII and the curly quotes — is NFKC-invariant), and `\w` (for
`\b`) as ASCII alphanumerics plus underscore. -/

def pyIsSpace (c : Char) : Bool :=
  c == ' ' || c == '\t' || c == '\n' || c.val == 13 || c.val == 11 || c.val == 12 ||
    c.val == 0xA0 || c.val == 0x3000

def pyStripList (cs : List Char) : List Char :=
  ((cs.dropWhile pyIsSpace).reverse.dropWhile pyIsSpace).reverse

def pyStrip (s : String) : String :=
  String.mk (pyStripList s.data)

def nfkcChar (c : Char) : Char :=
  if c.val = 0xA0 then ' ' else if c.val = 0x3000 then ' ' else c

def nfkc (s : String) : String :=
  String.mk (s.data.map nfkcChar)

def pyLowerChar (c : Char) : Char :=
  if 'A' ≤ c ∧ c ≤ 'Z' then Char.ofNat (c.toNat + 32) else c

def pyLower (s : String) : String :=
  String.mk (s.data.map pyLowerChar)

def isWordChar (c : Char) : Bool :=
  c.isAlphanum || c == '_'

/-- The character class of `_QUOTES_RE = [\"'`“”‘’]+` (query_normalizer.py
line 13): straight double and single quote, backtick, and the four curly
quotes.  The straight quote, apostrophe and backtick are written by code
point. -/
def isQuoteChar (c : Char) : Bool :=
  c.val == 34 || c.val == 39 || c.val == 96 ||
    c == '“' || c == '”' || c == '‘' || c == '’'

/-! ## Regex engine for the two pattern shapes of `_DOMAIN_CANON_RULES`

Each rule is either `\b lit \b` or `\b lit1 \s* lit2 \b`, IGNORECASE,
replaced by a fixed hyphenated literal.  Because every pattern begins and
ends with a word character, the leading `\b` holds exactly when the
preceding character is absent or a non-word character, and the trailing
`\b` exactly when the following character is absent or a non-word
character.  `\s*` is matched greedily, which agrees with backtracking
semantics here because the literal after it begins with a non-space
letter. -/

inductive CanonPat where
  | lit (w : List Char) : CanonPat
  | two (w1 w2 : List Char) : CanonPat

/-- Case-insensitive literal match; returns (consumed, remainder). -/
def matchLit : List Char → List Char → Option (List Char × List Char)
  | [], cs => some ([], cs)
  | _ :: _, [] => none
  | p :: ps, c :: cs =>
    if pyLowerChar c = pyLowerChar p then
      match matchLit ps cs with
      | some (con, rest) => some (c :: con, rest)
      | none => none
    else none

def matchPat (pat : CanonPat) (cs : List Char) : Option (List Char × List Char) :=
  match pat with
  | CanonPat.lit w => matchLit w cs
  | CanonPat.two w1 w2 =>
    match matchLit w1 cs with
    | none => none
    | some (con1, rest) =>
      let sp := rest.takeWhile pyIsSpace
      match matchLit w2 (rest.dropWhile pyIsSpace) with
      | none => none
      | some (con2, rem) => some (con1 ++ sp ++ con2, rem)

def boundaryBefore (prev : Option Char) : Bool :=
  match prev with
  | none => true
  | some c => !isWordChar c

def boundaryAfter (rem : List Char) : Bool :=
  match rem with
  | [] => true
  | c :: _ => !isWordChar c

/-- `pattern.sub(replacement, text)` for one canonicalization rule: scan
left to right over the original characters, tracking the previously
consumed original character for the `\b` checks; on a boundary-respecting
match emit the replacement and continue after the matched span, otherwise
emit the character.  `fuel` bounds the number of scan steps; each step
consumes at least one input character, so `fuel = cs.length` is exact. -/
def subPatGo (pat : CanonPat) (repl : List Char) :
    Nat → Option Char → List Char → List Char
  | 0, _, cs => cs
  | _ + 1, _, [] => []
  | fuel + 1, prev, c :: rest =>
    if boundaryBefore prev then
      match matchPat pat (c :: rest) with
      | some (con, rem) =>
        if boundaryAfter rem ∧ con ≠ [] then
          repl ++ subPatGo pat repl fuel con.getLast? rem
        else c :: subPatGo pat repl fuel (some c) rest
      | none => c :: subPatGo pat repl fuel (some c) rest
    else c :: subPatGo pat repl fuel (some c) rest

def subPat (pat : CanonPat) (repl : List Char) (cs : List Char) : List Char :=
  subPatGo pat repl cs.length none cs

/-- `_DOMAIN_CANON_RULES` (query_normalizer.py lines 15-22), in source
order. -/
def domainCanonRules : List (CanonPat × List Char) :=
  [ (CanonPat.two "spring".data "boot".data, "spring-boot".data),
    (CanonPat.lit "springboot".data, "spring-boot".data),
    (CanonPat.two "spring".data "security".data, "spring-security".data),
    (CanonPat.lit "springsecurity".data, "spring-security".data),
    (CanonPat.two "spring".data "data".data, "spring-data".data),
    (CanonPat.two "spring".data "framework".data, "spring-framework".data) ]

/-- `_apply_domain_canon` (query_normalizer.py lines 29-33). -/
def applyDomainCanon (cs : List Char) : List Char :=
  domainCanonRules.foldl (fun acc r => subPat r.1 r.2 acc) cs

theorem dropWhile_length_le {α : Type} (p : α → Bool) (l : List α) :
    (l.dropWhile p).length ≤ l.length := by
  induction l with
  | nil => simp [List.dropWhile]
  | cons a l ih =>
    by_cases h : p a
    · simp only [List.dropWhile, h]
      exact Nat.le_succ_of_le ih
    · simp [List.dropWhile, h]

/-- `_QUOTES_RE.sub(" ", text)`: each maximal run of quote-like characters
becomes a single space.  As in `subPatGo`, `fuel` bounds the scan steps and
each step consumes at least one character, so `fuel = cs.length` is exact. -/
def quotesToSpaceGo : Nat → List Char → List Char
  | 0, cs => cs
  | _ + 1, [] => []
  | fuel + 1, c :: rest =>
    if isQuoteChar c then ' ' :: quotesToSpaceGo fuel (rest.dropWhile isQuoteChar)
    else c :: quotesToSpaceGo fuel rest

def quotesToSpace (cs : List Char) : List Char :=
  quotesToSpaceGo cs.length cs

/-- `_MULTI_SPACE_RE.sub(" ", text)`: each maximal whitespace run becomes a
single space. -/
def collapseWsGo : Nat → List Char → List Char
  | 0, cs => cs
  | _ + 1, [] => []
  | fuel + 1, c :: rest =>
    if pyIsSpace c then ' ' :: collapseWsGo fuel (rest.dropWhile pyIsSpace)
    else c :: collapseWsGo fuel rest

def collapseWs (cs : List Char) : List Char :=
  collapseWsGo cs.length cs

/-- `_normalize_whitespace` (query_normalizer.py lines 25-26). -/
def normalizeWhitespace (cs : List Char) : List Char :=
  pyStripList (collapseWs cs)

/-- `normalize_query` (query_normalizer.py lines 36-55): strip; return
empty for blank input; NFKC; lowercase; ordered domain canonicalization;
quote-like characters to spaces; whitespace collapse and trim. -/
def normalize_query (text : String) : String :=
  let raw := pyStrip text
  if raw = "" then ""
  else
    let out1 := nfkc raw
    let out2 := pyLower out1
    let out3 := applyDomainCanon out2.data
    let out4 := quotesToSpace out3
    String.mk (normalizeWhitespace out4)

/-! ## C6 helper lemmas -/

theorem char_eq_of_val_eq {a b : Char} (h : a.val = b.val) : a = b := by
  cases a; cases b; simp only at h; subst h; rfl

theorem quote_char_cases {c : Char} (h : isQuoteChar c = true) :
    c = Char.ofNat 34 ∨ c = Char.ofNat 39 ∨ c = Char.ofNat 96 ∨
      c = '“' ∨ c = '”' ∨ c = '‘' ∨ c = '’' := by
  simp only [isQuoteChar, Bool.or_eq_true, beq_iff_eq] at h
  rcases h with ((((((h | h) | h) | h) | h) | h) | h)
  · exact Or.inl (char_eq_of_val_eq (by rw [h]; decide))
  · exact Or.inr (Or.inl (char_eq_of_val_eq (by rw [h]; decide)))
  · exact Or.inr (Or.inr (Or.inl (char_eq_of_val_eq (by rw [h]; decide))))
  · exact Or.inr (Or.inr (Or.inr (Or.inl h)))
  · exact Or.inr (Or.inr (Or.inr (Or.inr (Or.inl h))))
  · exact Or.inr (Or.inr (Or.inr (Or.inr (Or.inr (Or.inl h)))))
  · exact Or.inr (Or.inr (Or.inr (Or.inr (Or.inr (Or.inr h)))))

theorem quote_not_space {c : Char} (h : isQuoteChar c = true) : pyIsSpace c = false := by
  rcases quote_char_cases h with h | h | h | h | h | h | h <;> subst h <;> decide

theorem quote_nfkc_id {c : Char} (h : isQuoteChar c = true) : nfkcChar c = c := by
  rcases quote_char_cases h with h | h | h | h | h | h | h <;> subst h <;> decide

theorem quote_lower_id {c : Char} (h : isQuoteChar c = true) : pyLowerChar c = c := by
  rcases quote_char_cases h with h | h | h | h | h | h | h <;> subst h <;> decide

theorem quote_ne_s {c : Char} (h : isQuoteChar c = true) : pyLowerChar c ≠ 's' := by
  rcases quote_char_cases h with h | h | h | h | h | h | h <;> subst h <;> decide

theorem dropWhile_eq_self_of_not {α : Type} (p : α → Bool) (l : List α)
    (h : ∀ c ∈ l, p c = false) : l.dropWhile p = l := by
  cases l with
  | nil => rfl
  | cons a l => simp [List.dropWhile, h a (List.mem_cons_self a l)]

theorem dropWhile_eq_nil_of_all {α : Type} (p : α → Bool) (l : List α)
    (h : ∀ c ∈ l, p c = true) : l.dropWhile p = [] := by
  induction l with
  | nil => rfl
  | cons a l ih =>
    simp only [List.dropWhile, h a (List.mem_cons_self a l)]
    exact ih fun c hc => h c (List.mem_cons_of_mem a hc)

theorem pyStripList_of_all_quotes (cs : List Char)
    (h : ∀ c ∈ cs, isQuoteChar c = true) : pyStripList cs = cs := by
  unfold pyStripList
  rw [dropWhile_eq_self_of_not pyIsSpace cs (fun c hc => quote_not_space (h c hc))]
  rw [dropWhile_eq_self_of_not pyIsSpace cs.reverse
    (fun c hc => quote_not_space (h c (List.mem_reverse.mp hc)))]
  exact List.reverse_reverse cs

theorem map_eq_self_of_id {α : Type} (f : α → α) (l : List α)
    (h : ∀ c ∈ l, f c = c) : l.map f = l := by
  induction l with
  | nil => rfl
  | cons a l ih =>
    simp only [List.map, h a (List.mem_cons_self a l)]
    rw [ih fun c hc => h c (List.mem_cons_of_mem a hc)]

/-- Head character of a rule pattern (the first character its regex must
match, always a word character here). -/
def patHead : CanonPat → Option Char
  | CanonPat.lit w => w.head?
  | CanonPat.two w1 _ => w1.head?

theorem matchPat_none_of_head_ne (pat : CanonPat) (p0 : Char) (c : Char) (rest : List Char)
    (hp : patHead pat = some p0) (hc : pyLowerChar c ≠ pyLowerChar p0) :
    matchPat pat (c :: rest) = none := by
  cases pat with
  | lit w =>
    cases w with
    | nil => simp [patHead] at hp
    | cons q ws =>
      simp only [patHead, List.head?] at hp
      cases hp
      simp [matchPat, matchLit, hc]
  | two w1 w2 =>
    cases w1 with
    | nil => simp [patHead] at hp
    | cons q ws =>
      simp only [patHead, List.head?] at hp
      cases hp
      simp [matchPat, matchLit, hc]

theorem subPatGo_id_of_ne_head (pat : CanonPat) (repl : List Char) (p0 : Char)
    (hp : patHead pat = some p0) :
    ∀ (fuel : Nat) (prev : Option Char) (cs : List Char),
      (∀ c ∈ cs, pyLowerChar c ≠ pyLowerChar p0) → subPatGo pat repl fuel prev cs = cs := by
  intro fuel
  induction fuel with
  | zero => intro prev cs _; rfl
  | succ fuel ih =>
    intro prev cs hcs
    cases cs with
    | nil => rfl
    | cons c rest =>
      have hmp := matchPat_none_of_head_ne pat p0 c rest hp (hcs c (List.mem_cons_self c rest))
      by_cases hb : boundaryBefore prev = true
      · simp only [subPatGo, hb, if_true, hmp]
        rw [ih (some c) rest fun x hx => hcs x (List.mem_cons_of_mem c hx)]
      · simp only [Bool.not_eq_true] at hb
        simp only [subPatGo, hb, Bool.false_eq_true, if_false]
        rw [ih (some c) rest fun x hx => hcs x (List.mem_cons_of_mem c hx)]

theorem subPat_id_of_ne_head (pat : CanonPat) (repl : List Char) (p0 : Char)
    (hp : patHead pat = some p0) (cs : List Char)
    (hcs : ∀ c ∈ cs, pyLowerChar c ≠ pyLowerChar p0) : subPat pat repl cs = cs :=
  subPatGo_id_of_ne_head pat repl p0 hp cs.length none cs hcs

theorem applyDomainCanon_of_all_quotes (cs : List Char)
    (h : ∀ c ∈ cs, isQuoteChar c = true) : applyDomainCanon cs = cs := by
  have hs : ∀ c ∈ cs, pyLowerChar c ≠ pyLowerChar 's' := by
    intro c hc
    have hlow : pyLowerChar 's' = 's' := by decide
    rw [hlow]
    exact quote_ne_s (h c hc)
  have h1 : subPat (CanonPat.two "spring".data "boot".data) "spring-boot".data cs = cs :=
    subPat_id_of_ne_head _ _ 's' (by rfl) cs hs
  have h2 : subPat (CanonPat.lit "springboot".data) "spring-boot".data cs = cs :=
    subPat_id_of_ne_head _ _ 's' (by rfl) cs hs
  have h3 : subPat (CanonPat.two "spring".data "security".data) "spring-security".data cs = cs :=
    subPat_id_of_ne_head _ _ 's' (by rfl) cs hs
  have h4 : subPat (CanonPat.lit "springsecurity".data) "spring-security".data cs = cs :=
    subPat_id_of_ne_head _ _ 's' (by rfl) cs hs
  have h5 : subPat (CanonPat.two "spring".data "data".data) "spring-data".data cs = cs :=
    subPat_id_of_ne_head _ _ 's' (by rfl) cs hs
  have h6 : subPat (CanonPat.two "spring".data "framework".data) "spring-framework".data cs = cs :=
    subPat_id_of_ne_head _ _ 's' (by rfl) cs hs
  simp only [applyDomainCanon, domainCanonRules, List.foldl, h1, h2, h3, h4, h5, h6]

theorem quotesToSpaceGo_nil (fuel : Nat) : quotesToSpaceGo fuel [] = [] := by
  cases fuel <;> rfl

theorem quotesToSpace_of_all_quotes (c : Char) (rest : List Char)
    (h : ∀ x ∈ c :: rest, isQuoteChar x = true) : quotesToSpace (c :: rest) = [' '] := by
  simp only [quotesToSpace, List.length, subPatGo, quotesToSpaceGo,
    h c (List.mem_cons_self c rest), if_true]
  rw [dropWhile_eq_nil_of_all isQuoteChar rest
    (fun x hx => h x (List.mem_cons_of_mem c hx)), quotesToSpaceGo_nil]

theorem string_data_nil_iff (s : String) : s.data = [] ↔ s = "" := by
  cases s with
  | mk data =>
    constructor
    · intro h
      simp only at h
      subst h
      rfl
    · intro h
      rw [h]

/-- C6: `normalize_query` applies, in order: return empty for blank input;
NFKC; lowercasing; the ordered case-insensitive domain substitutions (the
rules of `domainCanonRules`, word-boundary matched, in source order);
replacement of quote-like characters by a space; and whitespace collapse
with trimming.  Concretely `normalize_query "  Spring BOOT  " =
"spring-boot"`, `normalize_query "" = ""`, and every string consisting
only of quote characters normalizes to the empty string. -/
theorem C6_normalize_query_spec :
    (∀ text : String,
      normalize_query text =
        if pyStrip text = "" then ""
        else String.mk (normalizeWhitespace (quotesToSpace
          (applyDomainCanon (pyLower (nfkc (pyStrip text))).data)))) ∧
    normalize_query "  Spring BOOT  " = "spring-boot" ∧
    normalize_query "" = "" ∧
    (∀ s : String, (∀ c ∈ s.data, isQuoteChar c = true) → normalize_query s = "") := by
  refine ⟨fun text => rfl, by decide, by decide, ?_⟩
  intro s hq
  by_cases hnil : s.data = []
  · rw [(string_data_nil_iff s).mp hnil]
    decide
  · have hstrip : pyStrip s = s := by
      unfold pyStrip
      rw [pyStripList_of_all_quotes s.data hq]
    have hnf : nfkc s = s := by
      unfold nfkc
      rw [map_eq_self_of_id _ _ (fun c hc => quote_nfkc_id (hq c hc))]
    have hlw : pyLower s = s := by
      unfold pyLower
      rw [map_eq_self_of_id _ _ (fun c hc => quote_lower_id (hq c hc))]
    obtain ⟨c, rest, hcr⟩ : ∃ c rest, s.data = c :: rest := by
      cases hd : s.data with
      | nil => exact absurd hd hnil
      | cons c rest => exact ⟨c, rest, rfl⟩
    have hne : ¬s = "" := fun h => hnil ((string_data_nil_iff s).mpr h)
    have hpipe : normalize_query s =
        if pyStrip s = "" then ""
        else String.mk (normalizeWhitespace (quotesToSpace
          (applyDomainCanon (pyLower (nfkc (pyStrip s))).data))) := rfl
    rw [hpipe, hstrip, hnf, hlw, if_neg hne, applyDomainCanon_of_all_quotes s.data hq, hcr,
      quotesToSpace_of_all_quotes c rest (hcr ▸ hq)]
    decide

/-- Witness for C6's conditional part: the two-apostrophe string (quote
characters only) normalizes to the empty string. -/
theorem C6_normalize_query_spec_witness :
    normalize_query (String.mk [Char.ofNat 39, Char.ofNat 39]) = "" :=
  C6_normalize_query_spec.2.2.2 (String.mk [Char.ofNat 39, Char.ofNat 39]) (by decide)

/-! ## Project classification (src/app/services/chain.py) -/

/-- `SPRING_PROJECTS` (chain.py lines 8-15): the closed set of 23 project
names, verbatim. -/
def SPRING_PROJECTS : List String :=
  [ "spring boot", "spring framework", "spring data", "spring cloud", "spring cloud data flow",
    "spring security", "spring authorization server", "spring for graphql", "spring session",
    "spring integration", "spring hateoas", "spring modulith", "spring rest docs", "spring ai",
    "spring batch", "spring amqp", "spring for apache kafka", "spring ldap",
    "spring for apache pulsar", "spring shell", "spring statemachine", "spring web flow",
    "spring web services" ]

/-- `classify_project` (chain.py lines 24-43).  The LLM call is the
`modelOutput` oracle input; the function returns `project.strip().lower()`
of it, with no membership check against `SPRING_PROJECTS`. -/
def classify_project (modelOutput : String) : String :=
  pyLower (pyStrip modelOutput)

def systemPromptText (name : String) : String :=
  "당신은 " ++ name ++ " 전문가입니다. 다음 질문에 한국어로 답변해주세요."

/-- `get_system_prompt` (chain.py lines 45-48): substitute
`"spring framework"` for any name outside the 23, then build the persona
prompt. -/
def get_system_prompt (projectName : String) : String :=
  let name := if projectName ∈ SPRING_PROJECTS then projectName else "spring framework"
  systemPromptText name

/-- C5 counterexample: for the classification-model output `"banana"`
(already trimmed and lowercase, and not one of the 23 project names),
`classify_project` returns `"banana"`, not `"spring framework"` — the
membership check with the `"spring framework"` default lives in
`get_system_prompt`, not in `classify_project`. -/
theorem C5_classify_project_counterexample :
    ("banana" ∈ SPRING_PROJECTS → False) ∧
    classify_project "banana" = "banana" ∧
    classify_project "banana" ≠ "spring framework" := by
  refine ⟨by decide, by decide, by decide⟩

/-- C5 amended: `classify_project` returns the trimmed, lowercased model
output unconditionally (so when that is one of the 23 enumerated names it
returns that name); the defaulting of unknown names to
`"spring framework"` happens downstream, in `get_system_prompt`. -/
theorem C5_classify_project_amended :
    (∀ modelOutput : String,
      classify_project modelOutput = pyLower (pyStrip modelOutput) ∧
      get_system_prompt (classify_project modelOutput) =
        systemPromptText
          (if classify_project modelOutput ∈ SPRING_PROJECTS then classify_project modelOutput
           else "spring framework")) ∧
    SPRING_PROJECTS.all (fun name => classify_project name == name) = true := by
  exact ⟨fun modelOutput => ⟨rfl, rfl⟩, by decide⟩

/-! ## History mapping and query resolution
(src/app/services/history_mapper.py, query_processor.py) -/

structure HistoryMessage where
  role : String
  content : String

/-- Internal LangChain-style conversational messages. -/
inductive LCMessage where
  | human (content : String) : LCMessage
  | ai (content : String) : LCMessage

/-- `build_history_messages` (history_mapper.py lines 6-16): keep `human`
and `ai` entries in order, silently drop others. -/
def build_history_messages : List HistoryMessage → List LCMessage
  | [] => []
  | h :: rest =>
    if h.role = "human" then LCMessage.human h.content :: build_history_messages rest
    else if h.role = "ai" then LCMessage.ai h.content :: build_history_messages rest
    else build_history_messages rest

/-- `rewrite_query` (query_processor.py lines 15-39): one LLM call (the
`modelOutput` oracle input) whose trimmed output is returned. -/
def rewrite_query (modelOutput : String) : String :=
  pyStrip modelOutput

/-- `build_search_query` (query_processor.py lines 42-51).  The second
component records whether the rewrite LLM call was invoked. -/
def build_search_query (rewriteModelOutput : String) (question : String)
    (historyMessages : List LCMessage) : String × Bool :=
  match historyMessages with
  | [] =>
    let searchQuery := question
    let normalized := normalize_query searchQuery
    (if normalized = "" then searchQuery else normalized, false)
  | _ :: _ =>
    let searchQuery := pyStrip (rewrite_query rewriteModelOutput)
    let normalized := normalize_query searchQuery
    (if normalized = "" then searchQuery else normalized, true)

/-- C7: with empty history `build_search_query` normalizes the raw question
and performs no rewrite call — in particular it equals `normalize_query q`
whenever that is non-empty; with non-empty history it first rewrites via
the language model (trimming the output) and then normalizes; and whenever
normalization yields the empty string it returns the pre-normalization
value instead of the empty string. -/
theorem C7_build_search_query_spec :
    (∀ (rwOut q : String), build_search_query rwOut q []
        = (if normalize_query q = "" then q else normalize_query q, false)) ∧
    (∀ (rwOut q : String), normalize_query q ≠ "" →
        build_search_query rwOut q [] = (normalize_query q, false)) ∧
    (∀ (rwOut q : String) (m : LCMessage) (hs : List LCMessage),
        build_search_query rwOut q (m :: hs)
          = (if normalize_query (pyStrip (rewrite_query rwOut)) = ""
             then pyStrip (rewrite_query rwOut)
             else normalize_query (pyStrip (rewrite_query rwOut)), true)) ∧
    (∀ (rwOut q : String), normalize_query q = "" →
        (build_search_query rwOut q []).1 = q) := by
  refine ⟨fun rwOut q => rfl, ?_, fun rwOut q m hs => rfl, ?_⟩
  · intro rwOut q h
    simp [build_search_query, h]
  · intro rwOut q h
    simp [build_search_query, h]

/-- Witness for C7: a question whose normalization is non-empty follows the
normalize path, and one consisting only of quotes (normalizing to empty)
falls back to the raw question. -/
theorem C7_build_search_query_spec_witness :
    build_search_query "ignored" "  Spring BOOT  " [] = ("spring-boot", false) ∧
    (build_search_query "ignored" (String.mk [Char.ofNat 39, Char.ofNat 39]) []).1
      = String.mk [Char.ofNat 39, Char.ofNat 39] := by
  constructor
  · have h := C7_build_search_query_spec.2.1 "ignored" "  Spring BOOT  " (by decide)
    rw [h]
    decide
  · exact C7_build_search_query_spec.2.2.2 "ignored" _ (by decide)

/-! ## Request contract (src/app/schemas/chat.py)

`ChatRequest` is a pydantic v2 model: `message: str` (required; any string,
there is no non-empty constraint) and
`history: Optional[List[HistoryMessage]] = []`.  Its validation of a JSON
request body is embedded here: a `str` field accepts exactly a JSON string,
`Optional[...]` additionally accepts `null`, an absent `history` takes the
default `[]`, and unknown keys are ignored (the model sets no
`model_config(extra=...)`, so pydantic's default `extra="ignore"` behavior
applies). -/

structure ChatRequest where
  message : String
  history : Option (List HistoryMessage)

/-- First-match field lookup in a JSON object body. -/
def lookupField : List (String × Json) → String → Option Json
  | [], _ => none
  | (k, v) :: rest, key => if k = key then some v else lookupField rest key

def validateHistoryMessage (j : Json) : Option HistoryMessage :=
  match j with
  | Json.obj fields =>
    match lookupField fields "role", lookupField fields "content" with
    | some (Json.str r), some (Json.str c) => some ⟨r, c⟩
    | _, _ => none
  | _ => none

def validateHistoryItems : List Json → Option (List HistoryMessage)
  | [] => some []
  | j :: rest =>
    match validateHistoryMessage j, validateHistoryItems rest with
    | some m, some ms => some (m :: ms)
    | _, _ => none

/-- pydantic validation of a `ChatRequest` from a JSON object body. -/
def validateChatRequest (body : List (String × Json)) : Option ChatRequest :=
  match lookupField body "message" with
  | some (Json.str m) =>
    match lookupField body "history" with
    | none => some ⟨m, some []⟩
    | some Json.null => some ⟨m, none⟩
    | some (Json.arr elems) =>
      match validateHistoryItems elems with
      | some msgs => some ⟨m, some msgs⟩
      | none => none
    | some _ => none
  | _ => none

theorem lookupField_append_of_absent (body extras : List (String × Json)) (key : String)
    (h : ∀ kv ∈ extras, kv.1 ≠ key) :
    lookupField (body ++ extras) key = lookupField body key := by
  induction body with
  | nil =>
    simp only [List.nil_append]
    induction extras with
    | nil => rfl
    | cons kv rest ih =>
      simp only [lookupField, if_neg (h kv (List.mem_cons_self kv rest))]
      exact ih fun x hx => h x (List.mem_cons_of_mem kv hx)
  | cons kv rest ih =>
    simp only [List.cons_append, lookupField]
    by_cases hk : kv.1 = key
    · simp [hk]
    · simp only [if_neg hk]
      exact ih

/-- C9 counterexample: the request body `{"message": ""}` — present but
empty `message` — is accepted by the transport boundary (pydantic imposes
no non-empty constraint on `message: str`), contradicting "accepted only
when message is present and non-empty". -/
theorem C9_chat_request_counterexample :
    validateChatRequest [("message", Json.str "")] = some ⟨"", some []⟩ := rfl

/-- C9 amended: a ChatRequest is accepted exactly when `message` is present
as a string — the empty string included, the boundary does not reject an
empty message; `history` defaults to the empty list when absent; and
unknown additional fields are ignored rather than rejected. -/
theorem C9_chat_request_amended :
    (∀ body : List (String × Json), lookupField body "message" = none →
      validateChatRequest body = none) ∧
    (∀ (body : List (String × Json)) (m : String),
      lookupField body "message" = some (Json.str m) →
      lookupField body "history" = none →
      validateChatRequest body = some ⟨m, some []⟩) ∧
    (validateChatRequest [("message", Json.str "")]).isSome = true ∧
    (∀ body extras : List (String × Json),
      (∀ kv ∈ extras, kv.1 ≠ "message" ∧ kv.1 ≠ "history") →
      validateChatRequest (body ++ extras) = validateChatRequest body) := by
  refine ⟨?_, ?_, rfl, ?_⟩
  · intro body h
    simp only [validateChatRequest, h]
  · intro body m h1 h2
    simp only [validateChatRequest, h1, h2]
  · intro body extras h
    have h1 := lookupField_append_of_absent body extras "message" fun kv hkv => (h kv hkv).1
    have h2 := lookupField_append_of_absent body extras "history" fun kv hkv => (h kv hkv).2
    simp only [validateChatRequest, h1, h2]

/-- Witness for C9's amended theorem at concrete bodies: an unknown extra
field does not change acceptance, and an absent history defaults to []. -/
theorem C9_chat_request_amended_witness :
    validateChatRequest [("message", Json.str "hi"), ("extra", Json.num 1)]
        = validateChatRequest [("message", Json.str "hi")] ∧
    validateChatRequest [("message", Json.str "hi")] = some ⟨"hi", some []⟩ := by
  constructor
  · exact C9_chat_request_amended.2.2.2 [("message", Json.str "hi")] [("extra", Json.num 1)]
      (by intro kv hkv; simp only [List.mem_singleton] at hkv; subst hkv; exact ⟨by decide, by decide⟩)
  · exact C9_chat_request_amended.2.1 [("message", Json.str "hi")] "hi" rfl rfl

/-! ## Vector-index upsert pipeline
(src/data_pipeline/utils/upsert_runner.py, src/data_pipeline/run_indexing.py)

`index.upsert` is an external network call; its behavior is the oracle
`attemptOutcome : Nat → Option String`, where `attemptOutcome i = none`
means the i-th attempt (0-based) succeeds and `some e` means it raises an
exception rendering as `e`.  A batch is its list of row ids. -/

/-- Python `str(error_message)` as interpolated into the f-string:
`None` renders as "None". -/
def pyFormatOptStr : Option String → String
  | some e => e
  | none => "None"

/-- `_build_batch_failure_examples` (upsert_runner.py lines 23-29):
`(id, "upsert_failed: " ++ message)` per batch member. -/
def buildBatchFailureExamples (batch : List String) (errorMessage : Option String) :
    List (String × String) :=
  batch.map fun rowId => (rowId, "upsert_failed: " ++ pyFormatOptStr errorMessage)

/-- The retry loop of `_flush_batch` from a given attempt number;
`fuel` counts the remaining loop iterations (`range(max_retries + 1)`
runs attempts `0 .. max_retries`, so the top-level call uses
`fuel = maxRetries + 1` and the fuel-exhausted fallthrough value mirrors
the `return False, "unknown upsert error"` after the loop).  The third
component counts how many times `index.upsert` was invoked. -/
def flushBatchFrom (attemptOutcome : Nat → Option String) (maxRetries : Nat) :
    Nat → Nat → Bool × Option String × Nat
  | _, 0 => (false, some "unknown upsert error", 0)
  | attempt, fuel + 1 =>
    match attemptOutcome attempt with
    | none => (true, none, 1)
    | some e =>
      if attempt = maxRetries then (false, some e, 1)
      else
        let r := flushBatchFrom attemptOutcome maxRetries (attempt + 1) fuel
        (r.1, r.2.1, r.2.2 + 1)

/-- `_flush_batch` (upsert_runner.py lines 32-48). -/
def flush_batch (attemptOutcome : Nat → Option String) (maxRetries : Nat) :
    Bool × Option String × Nat :=
  flushBatchFrom attemptOutcome maxRetries 0 (maxRetries + 1)

/-- `_process_batch` (upsert_runner.py lines 51-70): returns
(upserted count, failed count, failure examples). -/
def processBatch (attemptOutcome : Nat → Option String) (maxRetries : Nat)
    (batch : List String) : Nat × Nat × List (String × String) :=
  let r := flush_batch attemptOutcome maxRetries
  if r.1 then (batch.length, 0, [])
  else (0, batch.length, buildBatchFailureExamples batch r.2.1)

/-- The exit decision of `run_indexing.main` (run_indexing.py lines 92-93):
`raise SystemExit(2)` exactly when `failed_rows > 0`, otherwise a normal
return (exit status 0). -/
def mainExitCode (failedRows : Nat) : Nat :=
  if 0 < failedRows then 2 else 0

theorem flushBatchFrom_count_le (attemptOutcome : Nat → Option String) (maxRetries : Nat) :
    ∀ (fuel attempt : Nat),
      (flushBatchFrom attemptOutcome maxRetries attempt fuel).2.2 ≤ fuel := by
  intro fuel
  induction fuel with
  | zero => intro attempt; exact Nat.le_refl 0
  | succ fuel ih =>
    intro attempt
    simp only [flushBatchFrom]
    cases attemptOutcome attempt with
    | none => exact Nat.succ_le_succ (Nat.zero_le fuel)
    | some e =>
      by_cases hm : attempt = maxRetries
      · simp only [hm, if_pos rfl]
        exact Nat.succ_le_succ (Nat.zero_le fuel)
      · simp only [if_neg hm]
        exact Nat.succ_le_succ (ih (attempt + 1))

theorem flushBatchFrom_ok_iff (attemptOutcome : Nat → Option String) (maxRetries : Nat) :
    ∀ (fuel attempt : Nat), attempt + fuel = maxRetries + 1 →
      ((flushBatchFrom attemptOutcome maxRetries attempt fuel).1 = true ↔
        ∃ i, attempt ≤ i ∧ i ≤ maxRetries ∧ attemptOutcome i = none) := by
  intro fuel
  induction fuel with
  | zero =>
    intro attempt hinv
    constructor
    · intro h
      exact absurd h (by simp [flushBatchFrom])
    · intro ⟨i, hai, him, _⟩
      omega
  | succ fuel ih =>
    intro attempt hinv
    have ham : attempt ≤ maxRetries := by omega
    simp only [flushBatchFrom]
    cases ho : attemptOutcome attempt with
    | none =>
      simp only [true_iff]
      exact ⟨attempt, Nat.le_refl attempt, ham, ho⟩
    | some e =>
      by_cases hm : attempt = maxRetries
      · simp only [hm, if_pos rfl]
        constructor
        · intro h
          exact absurd h (by simp)
        · intro ⟨i, hai, him, hoi⟩
          have : i = maxRetries := by omega
          subst this
          rw [← hm] at hoi
          rw [ho] at hoi
          exact absurd hoi (by simp)
      · simp only [if_neg hm]
        rw [ih (attempt + 1) (by omega)]
        constructor
        · intro ⟨i, hai, him, hoi⟩
          exact ⟨i, Nat.le_of_succ_le hai, him, hoi⟩
        · intro ⟨i, hai, him, hoi⟩
          refine ⟨i, ?_, him, hoi⟩
          rcases Nat.eq_or_lt_of_le hai with heq | hlt
          · subst heq
            rw [ho] at hoi
            exact absurd hoi (by simp)
          · exact hlt

/-- C8: for every batch, the backing upsert call runs at most
`max_retries + 1` times; the batch succeeds exactly when some attempt
`i ≤ max_retries` succeeds (so success after earlier failures counts every
member row as upserted with no failure records); a batch failing on all
attempts records every member row as failed with a message beginning
`"upsert_failed:"`; and the indexing CLI exits with status code 2 exactly
when the final failed-row count is positive. -/
theorem C8_upsert_retry_and_exit :
    (∀ (outcome : Nat → Option String) (maxRetries : Nat),
      (flush_batch outcome maxRetries).2.2 ≤ maxRetries + 1) ∧
    (∀ (outcome : Nat → Option String) (maxRetries : Nat),
      ((flush_batch outcome maxRetries).1 = true ↔
        ∃ i, i ≤ maxRetries ∧ outcome i = none)) ∧
    (∀ (outcome : Nat → Option String) (maxRetries : Nat) (batch : List String),
      (flush_batch outcome maxRetries).1 = true →
      processBatch outcome maxRetries batch = (batch.length, 0, [])) ∧
    (∀ (outcome : Nat → Option String) (maxRetries : Nat) (batch : List String),
      (flush_batch outcome maxRetries).1 = false →
      (processBatch outcome maxRetries batch).2.1 = batch.length ∧
      (processBatch outcome maxRetries batch).2.2 =
        buildBatchFailureExamples batch (flush_batch outcome maxRetries).2.1 ∧
      ∀ f ∈ (processBatch outcome maxRetries batch).2.2,
        ∃ rest, f.2 = "upsert_failed:" ++ rest) ∧
    (∀ failedRows : Nat, mainExitCode failedRows = 2 ↔ 0 < failedRows) := by
  refine ⟨?_, ?_, ?_, ?_, ?_⟩
  · intro outcome maxRetries
    exact flushBatchFrom_count_le outcome maxRetries (maxRetries + 1) 0
  · intro outcome maxRetries
    rw [flush_batch, flushBatchFrom_ok_iff outcome maxRetries (maxRetries + 1) 0 (by omega)]
    constructor
    · intro ⟨i, _, him, hoi⟩
      exact ⟨i, him, hoi⟩
    · intro ⟨i, him, hoi⟩
      exact ⟨i, Nat.zero_le i, him, hoi⟩
  · intro outcome maxRetries batch h
    simp [processBatch, h]
  · intro outcome maxRetries batch h
    refine ⟨by simp [processBatch, h], by simp [processBatch, h], ?_⟩
    intro f hf
    simp only [processBatch, h, Bool.false_eq_true, if_false,
      buildBatchFailureExamples, List.mem_map] at hf
    obtain ⟨rowId, _, hfe⟩ := hf
    refine ⟨" " ++ pyFormatOptStr (flush_batch outcome maxRetries).2.1, ?_⟩
    rw [← hfe]
    rw [← String.append_assoc]
    rfl
  · intro failedRows
    by_cases h : 0 < failedRows
    · simp [mainExitCode, h]
    · simp [mainExitCode, h]

/-- Witness for C8 at concrete inputs: a batch failing twice and succeeding
on the third attempt is fully upserted (3 calls ≤ 4); a batch failing on
its only attempts records its row with an `"upsert_failed:"` message; exit
code 2 signals one failed row. -/
theorem C8_upsert_retry_and_exit_witness :
    processBatch (fun i => if i < 2 then some "boom" else none) 3 ["a", "b"] = (2, 0, []) ∧
    (flush_batch (fun i => if i < 2 then some "boom" else none) 3).2.2 ≤ 4 ∧
    (processBatch (fun _ => some "x") 1 ["r1"]).2.2 = [("r1", "upsert_failed: x")] ∧
    mainExitCode 1 = 2 := by
  refine ⟨?_, C8_upsert_retry_and_exit.1 (fun i => if i < 2 then some "boom" else none) 3, ?_, ?_⟩
  · exact C8_upsert_retry_and_exit.2.2.1 (fun i => if i < 2 then some "boom" else none) 3
      ["a", "b"] (by decide)
  · have h := C8_upsert_retry_and_exit.2.2.2.1 (fun _ => some "x") 1 ["r1"] (by decide)
    rw [h.2.1]
    decide
  · exact (C8_upsert_retry_and_exit.2.2.2.2 1).mpr (by decide)

/-! ## RAG answer call contract
(src/app/services/rag_chain.py, src/app/api/endpoints/chat.py,
src/app/services/rag_cache_processor.py)

Python binds a call's positional arguments against the callee's parameter
list before the body runs; a surplus raises `TypeError`.  The signature
facts below are read off the source. -/

structure PyCallSig where
  positionalParams : Nat
  requiredParams : Nat

/-- Successful positional binding of a Python call: at least the required
parameters and at most the declared positional parameters. -/
def bindsPositional (sig : PyCallSig) (nArgs : Nat) : Bool :=
  decide (sig.requiredParams ≤ nArgs) && decide (nArgs ≤ sig.positionalParams)

/-- Signature of `get_rag_answer_async(question: str, history: list = [])`
(rag_chain.py line 158): two positional parameters, one required. -/
def get_rag_answer_async_sig : PyCallSig := ⟨2, 1⟩

/-- Positional arguments passed to `get_rag_answer_async` by the `/rag`
endpoint `rag_chat_raw` (chat.py lines 30-34): `request.message`,
`search_query`, `history_messages`. -/
def ragChatRawArgCount : Nat := 3

/-- Positional arguments passed to `get_rag_answer_async` by the cache
orchestrators (rag_cache_processor.py lines 81, 191, 316): `raw_query`,
`canonical_query`, `history_messages`. -/
def ragCacheProcessorArgCount : Nat := 3

/-- The retrieval text `get_rag_answer_async` actually uses (rag_chain.py
lines 158-167): derived internally from its own `question` and `history`
parameters — the trimmed rewrite-model output when history is non-empty,
the raw question otherwise.  No separately-resolved search query parameter
exists. -/
def ragChainInternalSearchQuery (rewriteModelOutput question : String)
    (historyMessages : List LCMessage) : String :=
  match historyMessages with
  | [] => question
  | _ :: _ => pyStrip rewriteModelOutput

/-- C4: the three-argument invocations of `get_rag_answer_async` written in
the `/rag` endpoint and in the cache orchestrator do not bind against its
two-parameter signature (they raise `TypeError` before any retrieval), while
a two-argument call does bind; and with an empty history the function
retrieves with its own `question` argument, not with any separately-resolved
search query. -/
theorem C4_rag_answer_arg_mismatch :
    bindsPositional get_rag_answer_async_sig ragChatRawArgCount = false ∧
    bindsPositional get_rag_answer_async_sig ragCacheProcessorArgCount = false ∧
    bindsPositional get_rag_answer_async_sig 2 = true ∧
    (∀ rwOut q : String, ragChainInternalSearchQuery rwOut q [] = q) := by
  exact ⟨by decide, by decide, by decide, fun rwOut q => rfl⟩

/-! ## RAG cache orchestrator (src/app/services/rag_cache_processor.py)

The orchestrators are embedded over an environment of oracles for the
external calls a single request makes, one oracle per call site: the
`get_cached_json` results at the raw-phase check, the canonical-phase
check, the post-lock double check and each polling iteration (each already
collapsing backend errors to `none`, per `get_cached_json` above);
the `acquire_lock` result; the `get_rag_answer_async` outcome
(`Except.error` covering any raised `BaseException` — upstream failures,
the `TypeError` of the C4 arity mismatch, or an `asyncio.CancelledError`
delivered at the await); the atomic-commit outcome (logged only — the
computed answer is returned regardless); and the hashlib / rewrite-model /
settings values. -/

structure OrchEnv where
  sha256hex : String → String
  pipeVer : String
  answerTtlSec : Nat
  lockTtlSec : Nat
  lockWaitMs : Nat
  lockPollMs : Nat
  rewriteOut : String
  cacheRaw : Option Json
  cacheCanonical : Option Json
  cacheAfterLock : Option Json
  cachePoll : Nat → Option Json
  lockToken : Option String
  ragResult : Except String Json
  commitOutcome : CommitOutcome
  slotAcquired : Bool

inductive OrchError where
  | waitTimeout (key : String) : OrchError
  | ragFailure (msg : String) : OrchError
  | overloaded : OrchError

/-- Number of iterations of the polling loop
(`while time.monotonic() < deadline`), idealizing each cache check as
instantaneous and each sleep as exactly `poll_sec = max(poll_ms, 10)/1000`
seconds: iteration k starts at `k * poll_sec`, so the loop body runs for
every k with `k * poll < wait`, i.e. ⌈wait / poll⌉ times. -/
def pollIterations (lockWaitMs lockPollMs : Nat) : Nat :=
  (lockWaitMs + max lockPollMs 10 - 1) / max lockPollMs 10

/-- The polling loop: returns the first cached value seen (if any) and the
number of cache checks performed. -/
def pollLoopGo (cachePoll : Nat → Option Json) : Nat → Nat → Option Json × Nat
  | _, 0 => (none, 0)
  | k, fuel + 1 =>
    match cachePoll k with
    | some v => (some v, 1)
    | none =>
      let r := pollLoopGo cachePoll (k + 1) fuel
      (r.1, r.2 + 1)

def pollLoop (cachePoll : Nat → Option Json) (iterations : Nat) : Option Json × Nat :=
  pollLoopGo cachePoll 0 iterations

/-- Observable outcome of one `get_rag_answer_cached` request. -/
structure OrchResult where
  result : Except OrchError Json
  ragInvoked : Bool
  lockAttempted : Bool
  polls : Nat
  committed : Option CommitOutcome

/-- `get_rag_answer_cached` (rag_cache_processor.py lines 43-118): raw-key
lookup when no history; canonical lookup; distributed-lock attempt; on
acquisition re-check, compute, atomically commit (best-effort) and return
the answer; otherwise poll the canonical key until the wait budget elapses
and raise `TimeoutError`. -/
def get_rag_answer_cached (env : OrchEnv) (question : String)
    (history : List HistoryMessage) : OrchResult :=
  let historyMessages := build_history_messages history
  let rawQuery := pyStrip question
  match (if history.isEmpty then env.cacheRaw else none) with
  | some v =>
    { result := Except.ok v, ragInvoked := false, lockAttempted := false, polls := 0,
      committed := none }
  | none =>
    let canonicalQuery := (build_search_query env.rewriteOut rawQuery historyMessages).1
    let canonicalAnsKey := build_answer_key env.pipeVer (env.sha256hex canonicalQuery)
    match env.cacheCanonical with
    | some v =>
      { result := Except.ok v, ragInvoked := false, lockAttempted := false, polls := 0,
        committed := none }
    | none =>
      match env.lockToken with
      | some _ =>
        match env.cacheAfterLock with
        | some v =>
          { result := Except.ok v, ragInvoked := false, lockAttempted := true, polls := 0,
            committed := none }
        | none =>
          match env.ragResult with
          | Except.error e =>
            { result := Except.error (OrchError.ragFailure e), ragInvoked := true,
              lockAttempted := true, polls := 0, committed := none }
          | Except.ok result =>
            { result := Except.ok result, ragInvoked := true, lockAttempted := true,
              polls := 0, committed := some env.commitOutcome }
      | none =>
        let r := pollLoop env.cachePoll (pollIterations env.lockWaitMs env.lockPollMs)
        match r.1 with
        | some v =>
          { result := Except.ok v, ragInvoked := false, lockAttempted := true, polls := r.2,
            committed := none }
        | none =>
          { result := Except.error (OrchError.waitTimeout canonicalAnsKey),
            ragInvoked := false, lockAttempted := true, polls := r.2, committed := none }

theorem pollLoopGo_all_none (cachePoll : Nat → Option Json)
    (h : ∀ i, cachePoll i = none) :
    ∀ (fuel k : Nat), pollLoopGo cachePoll k fuel = (none, fuel) := by
  intro fuel
  induction fuel with
  | zero => intro k; rfl
  | succ fuel ih =>
    intro k
    simp only [pollLoopGo, h k, ih (k + 1)]

/-- C10: when the cache backend fails on every call — `get_cached_json`
reporting a miss and `acquire_lock` reporting not-acquired, both swallowing
the backend error (final conjunct, at the Redis level) — a
`get_rag_answer_cached` request never invokes the RAG computation: it polls
the canonical key for the full configured wait budget (⌈wait/poll⌉ checks)
and then fails with the wait-timeout error for that key. -/
theorem C10_backend_outage_wait_timeout (env : OrchEnv) (question : String)
    (history : List HistoryMessage)
    (h1 : env.cacheRaw = none) (h2 : env.cacheCanonical = none)
    (h3 : env.lockToken = none) (h4 : ∀ i, env.cachePoll i = none) :
    (get_rag_answer_cached env question history).result =
      Except.error (OrchError.waitTimeout (build_answer_key env.pipeVer
        (env.sha256hex (build_search_query env.rewriteOut (pyStrip question)
          (build_history_messages history)).1))) ∧
    (get_rag_answer_cached env question history).ragInvoked = false ∧
    (get_rag_answer_cached env question history).polls =
      pollIterations env.lockWaitMs env.lockPollMs ∧
    (∀ (st : RedisState) (key : String), st.healthy = false →
      get_cached_json st key = none ∧
      ∀ (tok : String) (ttl : Nat), (acquire_lock st tok key ttl).2 = none) := by
  have hpoll :
      pollLoop env.cachePoll (pollIterations env.lockWaitMs env.lockPollMs)
        = (none, pollIterations env.lockWaitMs env.lockPollMs) :=
    pollLoopGo_all_none env.cachePoll h4 _ 0
  refine ⟨?_, ?_, ?_, ?_⟩
  · simp only [get_rag_answer_cached, h1, ite_self, h2, h3, hpoll]
  · simp only [get_rag_answer_cached, h1, ite_self, h2, h3, hpoll]
  · simp only [get_rag_answer_cached, h1, ite_self, h2, h3, hpoll]
  · intro st key h
    refine ⟨by simp [get_cached_json, h], ?_⟩
    intro tok ttl
    simp [acquire_lock, h]

/-- Witness for C10 at a concrete outage environment (identity hash
stand-in, wait budget 50 ms, poll floor 10 ms): the request times out on
the canonical key after 5 polls without invoking RAG. -/
theorem C10_backend_outage_wait_timeout_witness :
    (get_rag_answer_cached
      ⟨fun s => s, "1", 3600, 120, 50, 10, "", none, none, none, fun _ => none, none,
        Except.ok (Json.obj []), CommitOutcome.committed, true⟩ "hi" []).result =
      Except.error (OrchError.waitTimeout "ans:p1:hi") ∧
    (get_rag_answer_cached
      ⟨fun s => s, "1", 3600, 120, 50, 10, "", none, none, none, fun _ => none, none,
        Except.ok (Json.obj []), CommitOutcome.committed, true⟩ "hi" []).ragInvoked = false ∧
    (get_rag_answer_cached
      ⟨fun s => s, "1", 3600, 120, 50, 10, "", none, none, none, fun _ => none, none,
        Except.ok (Json.obj []), CommitOutcome.committed, true⟩ "hi" []).polls = 5 := by
  have h := C10_backend_outage_wait_timeout
    ⟨fun s => s, "1", 3600, 120, 50, 10, "", none, none, none, fun _ => none, none,
      Except.ok (Json.obj []), CommitOutcome.committed, true⟩ "hi" [] rfl rfl rfl (fun i => rfl)
  refine ⟨?_, h.2.1, ?_⟩
  · rw [h.1]
    rfl
  · rw [h.2.2.1]
    rfl

/-! ## In-process singleflight
(rag_cache_processor.py lines 28-41 and 122-242, 245-368)

`_running_map` holds, per canonical key, an `asyncio.Future`; the
check-or-insert is guarded by `_running_map_lock` and contains no awaits,
so it is one atomic step against the other requests of the process.  A run
for one canonical key is modelled by an `SFState`: the registry entry for
that key (the registered future's id), each future's resolution, and a
fresh-id counter.  A future resolves at most once (`if not future.done()`),
waiters observe the resolution of the future id they joined, and the
shielded `_cleanup_running_entry` removes the entry exactly when it still
holds this owner's future.  Because registration is the only step touching
shared state before resolution, an arbitrary interleaving of N identical
concurrent calls is equivalent to some sequential order of their
registrations followed by the owner's completion; the simulation below
quantifies over that order only through the call count, the calls being
indistinguishable. -/

structure SFOwnerOutcome where
  result : Except OrchError Json
  ragInvoked : Bool
  lockAttempted : Bool
  polls : Nat
  committed : Option CommitOutcome

/-- Steps 5-7 of the singleflight owner (rag_cache_processor.py lines
173-231): Redis lock attempt; on acquisition the post-lock double check,
the RAG computation and the best-effort atomic commit; otherwise the
polling loop ending in `TimeoutError`.  `result` is what the owner call
returns, or the `BaseException` it raises (`.error`); the owner resolves
the shared future with exactly this outcome — `set_result` on each return
path, `set_exception` in the `except BaseException` branch (lines
232-236), which also covers `asyncio.CancelledError` reaching the owner. -/
def sfOwnerBody (env : OrchEnv) (canonicalAnsKey : String) : SFOwnerOutcome :=
  match env.lockToken with
  | some _ =>
    match env.cacheAfterLock with
    | some v =>
      { result := Except.ok v, ragInvoked := false, lockAttempted := true, polls := 0,
        committed := none }
    | none =>
      match env.ragResult with
      | Except.error e =>
        { result := Except.error (OrchError.ragFailure e), ragInvoked := true,
          lockAttempted := true, polls := 0, committed := none }
      | Except.ok result =>
        { result := Except.ok result, ragInvoked := true, lockAttempted := true,
          polls := 0, committed := some env.commitOutcome }
  | none =>
    let r := pollLoop env.cachePoll (pollIterations env.lockWaitMs env.lockPollMs)
    match r.1 with
    | some v =>
      { result := Except.ok v, ragInvoked := false, lockAttempted := true, polls := r.2,
        committed := none }
    | none =>
      { result := Except.error (OrchError.waitTimeout canonicalAnsKey),
        ragInvoked := false, lockAttempted := true, polls := r.2, committed := none }

/-- Owner body of the semaphore variant (rag_cache_processor.py lines
297-356): identical except the RAG computation runs inside
`rag_execution_slot()` (rag_concurrency.py lines 32-44), which raises
`RagOverloadedError` when no permit arrives within the wait timeout. -/
def sfOwnerBodySem (env : OrchEnv) (canonicalAnsKey : String) : SFOwnerOutcome :=
  match env.lockToken with
  | some _ =>
    match env.cacheAfterLock with
    | some v =>
      { result := Except.ok v, ragInvoked := false, lockAttempted := true, polls := 0,
        committed := none }
    | none =>
      if env.slotAcquired = false then
        { result := Except.error OrchError.overloaded, ragInvoked := false,
          lockAttempted := true, polls := 0, committed := none }
      else
        match env.ragResult with
        | Except.error e =>
          { result := Except.error (OrchError.ragFailure e), ragInvoked := true,
            lockAttempted := true, polls := 0, committed := none }
        | Except.ok result =>
          { result := Except.ok result, ragInvoked := true, lockAttempted := true,
            polls := 0, committed := some env.commitOutcome }
  | none =>
    let r := pollLoop env.cachePoll (pollIterations env.lockWaitMs env.lockPollMs)
    match r.1 with
    | some v =>
      { result := Except.ok v, ragInvoked := false, lockAttempted := true, polls := r.2,
        committed := none }
    | none =>
      { result := Except.error (OrchError.waitTimeout canonicalAnsKey),
        ragInvoked := false, lockAttempted := true, polls := r.2, committed := none }

structure SFState where
  entry : Option Nat
  resolved : Nat → Option (Except OrchError Json)
  nextId : Nat

/-- The mutex-guarded check-or-insert (lines 150-162): join the registered
future, or create and register a fresh one and become the owner.  Returns
(isOwner, future id). -/
def sfRegister (st : SFState) : SFState × (Bool × Nat) :=
  match st.entry with
  | some fid => (st, (false, fid))
  | none =>
    let fid := st.nextId
    ({ st with entry := some fid, nextId := st.nextId + 1 }, (true, fid))

/-- Resolve a future once (`if not future.done(): set_result/set_exception`). -/
def sfResolve (st : SFState) (fid : Nat) (r : Except OrchError Json) : SFState :=
  { st with resolved := fun i =>
      if i = fid then some ((st.resolved fid).getD r) else st.resolved i }

/-- `_cleanup_running_entry` (lines 32-41): remove the entry only while it
still holds this owner's future; executed under `asyncio.shield`, so it
runs in every outcome including cancellation of the owner. -/
def sfCleanup (st : SFState) (fid : Nat) : SFState :=
  { st with entry := if st.entry = some fid then none else st.entry }

inductive SFCallOutcome where
  | cachedRaw (v : Json) : SFCallOutcome
  | cachedCanonical (v : Json) : SFCallOutcome
  | joinedWaiter (fid : Nat) : SFCallOutcome
  | ownerDone (o : SFOwnerOutcome) : SFCallOutcome

/-- `get_rag_answer_cached_singleflight_in_process` (lines 122-242), one
call against the shared registry state: cache phases, then the atomic
check-or-insert; a joiner returns `await future` (it performs no lock
attempt and no polling); the owner runs `sfOwnerBody`, resolves the shared
future with its outcome, and — in the `finally`, shielded — cleans up the
registry entry. -/
def get_rag_answer_cached_singleflight_in_process (env : OrchEnv) (st : SFState)
    (question : String) (history : List HistoryMessage) : SFState × SFCallOutcome :=
  match (if history.isEmpty then env.cacheRaw else none) with
  | some v => (st, SFCallOutcome.cachedRaw v)
  | none =>
    let canonicalQuery :=
      (build_search_query env.rewriteOut (pyStrip question) (build_history_messages history)).1
    let canonicalAnsKey := build_answer_key env.pipeVer (env.sha256hex canonicalQuery)
    match env.cacheCanonical with
    | some v => (st, SFCallOutcome.cachedCanonical v)
    | none =>
      let reg := sfRegister st
      if reg.2.1 = false then (reg.1, SFCallOutcome.joinedWaiter reg.2.2)
      else
        let o := sfOwnerBody env canonicalAnsKey
        (sfCleanup (sfResolve reg.1 reg.2.2 o.result) reg.2.2, SFCallOutcome.ownerDone o)

/-- `get_rag_answer_cached_singleflight_in_process_with_semaphore`
(lines 245-368): identical, with the semaphore-gated owner body. -/
def get_rag_answer_cached_singleflight_in_process_with_semaphore (env : OrchEnv)
    (st : SFState) (question : String) (history : List HistoryMessage) :
    SFState × SFCallOutcome :=
  match (if history.isEmpty then env.cacheRaw else none) with
  | some v => (st, SFCallOutcome.cachedRaw v)
  | none =>
    let canonicalQuery :=
      (build_search_query env.rewriteOut (pyStrip question) (build_history_messages history)).1
    let canonicalAnsKey := build_answer_key env.pipeVer (env.sha256hex canonicalQuery)
    match env.cacheCanonical with
    | some v => (st, SFCallOutcome.cachedCanonical v)
    | none =>
      let reg := sfRegister st
      if reg.2.1 = false then (reg.1, SFCallOutcome.joinedWaiter reg.2.2)
      else
        let o := sfOwnerBodySem env canonicalAnsKey
        (sfCleanup (sfResolve reg.1 reg.2.2 o.result) reg.2.2, SFCallOutcome.ownerDone o)

/-- The canonical answer key a request computes (shared by all
orchestrator variants). -/
def canonicalKeyOf (env : OrchEnv) (question : String)
    (history : List HistoryMessage) : String :=
  build_answer_key env.pipeVer (env.sha256hex
    (build_search_query env.rewriteOut (pyStrip question) (build_history_messages history)).1)

/-- N same-process calls registering against the registry, in arrival
order. -/
def sfRegisterMany : SFState → Nat → SFState × List (Bool × Nat)
  | st, 0 => (st, [])
  | st, k + 1 =>
    let r := sfRegister st
    let rs := sfRegisterMany r.1 k
    (rs.1, r.2 :: rs.2)

theorem sfRegisterMany_joined (st : SFState) (fid : Nat) (h : st.entry = some fid) :
    ∀ m : Nat, sfRegisterMany st m = (st, List.replicate m (false, fid)) := by
  intro m
  induction m with
  | zero => rfl
  | succ m ih =>
    simp only [sfRegisterMany, sfRegister, h, ih, List.replicate]

theorem sfRegisterMany_from_empty (n : Nat) (hn : 1 ≤ n) :
    sfRegisterMany ⟨none, fun _ => none, 0⟩ n
      = (⟨some 0, fun _ => none, 1⟩, (true, 0) :: List.replicate (n - 1) (false, 0)) := by
  cases n with
  | zero => omega
  | succ m =>
    simp only [sfRegisterMany, sfRegister]
    rw [sfRegisterMany_joined ⟨some 0, fun _ => none, 1⟩ 0 rfl m]
    simp

/-- C2: for N ≥ 2 same-process concurrent calls on one previously-uncached
canonical key (both cache phases miss; the distributed lock, contended by
no other process, is granted; nothing appears at the double check), the
first registration creates future 0 and makes that call the owner while
every other call joins future 0 — a joined call returns `await future`
without any lock attempt or polling (b); the owner performs the single RAG
computation with zero polls (c), and its outcome is exactly the
computation's result, or its failure (d); an owner call is the
register/body/resolve/cleanup composition (e); and for every owner outcome
r — success, RAG failure, wait-timeout, or a cancellation delivered as an
exception — resolution followed by the shielded cleanup leaves the shared
future resolved with r (what every waiter observes) and the registry entry
removed (f). -/
theorem C2_singleflight_dedup (env : OrchEnv) (n : Nat) (hn : 2 ≤ n)
    (question : String)
    (hraw : env.cacheRaw = none) (hcan : env.cacheCanonical = none)
    (hlock : env.lockToken.isSome = true) (hdc : env.cacheAfterLock = none) :
    (sfRegisterMany ⟨none, fun _ => none, 0⟩ n).2
        = (true, 0) :: List.replicate (n - 1) (false, 0) ∧
    (∀ (st : SFState) (fid : Nat), st.entry = some fid →
      get_rag_answer_cached_singleflight_in_process env st question []
        = (st, SFCallOutcome.joinedWaiter fid)) ∧
    (sfOwnerBody env (canonicalKeyOf env question [])).ragInvoked = true ∧
    (sfOwnerBody env (canonicalKeyOf env question [])).polls = 0 ∧
    (sfOwnerBody env (canonicalKeyOf env question [])).result
        = (match env.ragResult with
           | Except.ok v => Except.ok v
           | Except.error e => Except.error (OrchError.ragFailure e)) ∧
    (get_rag_answer_cached_singleflight_in_process env ⟨none, fun _ => none, 0⟩ question []
        = (sfCleanup (sfResolve ⟨some 0, fun _ => none, 1⟩ 0
             (sfOwnerBody env (canonicalKeyOf env question [])).result) 0,
           SFCallOutcome.ownerDone (sfOwnerBody env (canonicalKeyOf env question [])))) ∧
    (∀ r : Except OrchError Json,
      (sfCleanup (sfResolve (sfRegisterMany ⟨none, fun _ => none, 0⟩ n).1 0 r) 0).entry
          = none ∧
      (sfCleanup (sfResolve (sfRegisterMany ⟨none, fun _ => none, 0⟩ n).1 0 r) 0).resolved 0
          = some r) := by
  obtain ⟨tok, htok⟩ := Option.isSome_iff_exists.mp hlock
  refine ⟨?_, ?_, ?_, ?_, ?_, ?_, ?_⟩
  · rw [sfRegisterMany_from_empty n (by omega)]
  · intro st fid h
    simp only [get_rag_answer_cached_singleflight_in_process, List.isEmpty_nil, if_true,
      hraw, hcan, sfRegister, h]
  · cases hres : env.ragResult with
    | ok v => simp [sfOwnerBody, htok, hdc, hres]
    | error e => simp [sfOwnerBody, htok, hdc, hres]
  · cases hres : env.ragResult with
    | ok v => simp [sfOwnerBody, htok, hdc, hres]
    | error e => simp [sfOwnerBody, htok, hdc, hres]
  · cases hres : env.ragResult with
    | ok v => simp [sfOwnerBody, htok, hdc, hres]
    | error e => simp [sfOwnerBody, htok, hdc, hres]
  · simp only [get_rag_answer_cached_singleflight_in_process, List.isEmpty_nil, if_true,
      hraw, hcan, sfRegister, canonicalKeyOf, build_history_messages]
    norm_num
  · intro r
    rw [sfRegisterMany_from_empty n (by omega)]
    constructor
    · simp [sfCleanup, sfResolve]
    · simp [sfCleanup, sfResolve]

/-- Witness for C2 at n = 3 with a concrete environment (identity hash
stand-in, lock granted, RAG computation returning an answer object): one
owner and two joiners on future 0; cleanup leaves the registry empty with
the future resolved. -/
theorem C2_singleflight_dedup_witness :
    (sfRegisterMany ⟨none, fun _ => none, 0⟩ 3).2
        = [(true, 0), (false, 0), (false, 0)] ∧
    (sfOwnerBody
      ⟨fun s => s, "1", 3600, 120, 50, 10, "", none, none, none, fun _ => none, some "tokA",
        Except.ok (Json.obj [("answer", Json.str "a")]), CommitOutcome.committed, true⟩
      (canonicalKeyOf
        ⟨fun s => s, "1", 3600, 120, 50, 10, "", none, none, none, fun _ => none, some "tokA",
          Except.ok (Json.obj [("answer", Json.str "a")]), CommitOutcome.committed, true⟩
        "hi" [])).ragInvoked = true ∧
    (sfCleanup (sfResolve (sfRegisterMany ⟨none, fun _ => none, 0⟩ 3).1 0
        (Except.ok (Json.obj []))) 0).entry = none := by
  have h := C2_singleflight_dedup
    ⟨fun s => s, "1", 3600, 120, 50, 10, "", none, none, none, fun _ => none, some "tokA",
      Except.ok (Json.obj [("answer", Json.str "a")]), CommitOutcome.committed, true⟩
    3 (by omega) "hi" rfl rfl rfl rfl
  refine ⟨?_, h.2.2.1, (h.2.2.2.2.2.2 (Except.ok (Json.obj []))).1⟩
  rw [h.1]
  rfl

/-- C3 counterexample: at a concrete wait-budget-exhaustion input (lock not
acquired, no cached value ever appearing, wait 50 ms / poll 10 ms), every
cached-RAG entry point the code offers — `get_rag_answer_cached`, the
singleflight variant, and the semaphore-gated variant — fails with the
wait-timeout error and performs no RAG computation.  No selectable
fail-open behavior (bypassing the cache and computing directly) exists
anywhere in the orchestrator: the claimed second policy is absent. -/
theorem C3_no_fail_open_counterexample :
    ((get_rag_answer_cached
        ⟨fun s => s, "1", 3600, 120, 50, 10, "", none, none, none, fun _ => none, none,
          Except.ok (Json.obj []), CommitOutcome.committed, true⟩ "hi" []).result
      = Except.error (OrchError.waitTimeout "ans:p1:hi") ∧
     (get_rag_answer_cached
        ⟨fun s => s, "1", 3600, 120, 50, 10, "", none, none, none, fun _ => none, none,
          Except.ok (Json.obj []), CommitOutcome.committed, true⟩ "hi" []).ragInvoked
      = false) ∧
    (get_rag_answer_cached_singleflight_in_process
        ⟨fun s => s, "1", 3600, 120, 50, 10, "", none, none, none, fun _ => none, none,
          Except.ok (Json.obj []), CommitOutcome.committed, true⟩
        ⟨none, fun _ => none, 0⟩ "hi" []).2
      = SFCallOutcome.ownerDone
          { result := Except.error (OrchError.waitTimeout "ans:p1:hi"), ragInvoked := false,
            lockAttempted := true, polls := 5, committed := none } ∧
    (get_rag_answer_cached_singleflight_in_process_with_semaphore
        ⟨fun s => s, "1", 3600, 120, 50, 10, "", none, none, none, fun _ => none, none,
          Except.ok (Json.obj []), CommitOutcome.committed, true⟩
        ⟨none, fun _ => none, 0⟩ "hi" []).2
      = SFCallOutcome.ownerDone
          { result := Except.error (OrchError.waitTimeout "ans:p1:hi"), ragInvoked := false,
            lockAttempted := true, polls := 5, committed := none } := by
  exact ⟨⟨rfl, rfl⟩, rfl, rfl⟩

/-- C3 amended: the orchestrator implements only the strict
wait-budget-exhaustion policy.  In every variant, a request that did not
obtain the distributed lock and saw no cached value within the configured
wait budget fails with the wait-timeout error for its canonical key and
performs no RAG computation; there is no selectable fail-open policy that
bypasses the cache and computes directly. -/
theorem C3_strict_only_amended (env : OrchEnv) (question : String)
    (history : List HistoryMessage)
    (h1 : env.cacheRaw = none) (h2 : env.cacheCanonical = none)
    (h3 : env.lockToken = none) (h4 : ∀ i, env.cachePoll i = none) :
    ((get_rag_answer_cached env question history).result
        = Except.error (OrchError.waitTimeout (canonicalKeyOf env question history)) ∧
      (get_rag_answer_cached env question history).ragInvoked = false) ∧
    (∀ st : SFState, st.entry = none →
      (get_rag_answer_cached_singleflight_in_process env st question history).2
          = SFCallOutcome.ownerDone (sfOwnerBody env (canonicalKeyOf env question history)) ∧
      (sfOwnerBody env (canonicalKeyOf env question history)).result
          = Except.error (OrchError.waitTimeout (canonicalKeyOf env question history)) ∧
      (sfOwnerBody env (canonicalKeyOf env question history)).ragInvoked = false) ∧
    (∀ st : SFState, st.entry = none →
      (get_rag_answer_cached_singleflight_in_process_with_semaphore env st question history).2
          = SFCallOutcome.ownerDone (sfOwnerBodySem env (canonicalKeyOf env question history)) ∧
      (sfOwnerBodySem env (canonicalKeyOf env question history)).result
          = Except.error (OrchError.waitTimeout (canonicalKeyOf env question history)) ∧
      (sfOwnerBodySem env (canonicalKeyOf env question history)).ragInvoked = false) := by
  have hpoll :
      pollLoop env.cachePoll (pollIterations env.lockWaitMs env.lockPollMs)
        = (none, pollIterations env.lockWaitMs env.lockPollMs) :=
    pollLoopGo_all_none env.cachePoll h4 _ 0
  refine ⟨⟨?_, ?_⟩, ?_, ?_⟩
  · simp only [get_rag_answer_cached, h1, ite_self, h2, h3, hpoll, canonicalKeyOf]
  · simp only [get_rag_answer_cached, h1, ite_self, h2, h3, hpoll]
  · intro st hst
    refine ⟨?_, ?_, ?_⟩
    · simp only [get_rag_answer_cached_singleflight_in_process, h1, ite_self, h2,
        sfRegister, hst, canonicalKeyOf]
      norm_num
    · simp only [sfOwnerBody, h3, hpoll]
    · simp only [sfOwnerBody, h3, hpoll]
  · intro st hst
    refine ⟨?_, ?_, ?_⟩
    · simp only [get_rag_answer_cached_singleflight_in_process_with_semaphore, h1, ite_self,
        h2, sfRegister, hst, canonicalKeyOf]
      norm_num
    · simp only [sfOwnerBodySem, h3, hpoll]
    · simp only [sfOwnerBodySem, h3, hpoll]

/-- Witness for C3's amended theorem at a concrete exhaustion environment:
both singleflight variants, started from an empty registry, end as an
owner whose outcome is the wait-timeout failure with no RAG invocation. -/
theorem C3_strict_only_amended_witness :
    (sfOwnerBody
      ⟨fun s => s, "1", 3600, 120, 40, 20, "", none, none, none, fun _ => none, none,
        Except.ok (Json.obj []), CommitOutcome.committed, true⟩
      (canonicalKeyOf
        ⟨fun s => s, "1", 3600, 120, 40, 20, "", none, none, none, fun _ => none, none,
          Except.ok (Json.obj []), CommitOutcome.committed, true⟩ "q" [])).ragInvoked
      = false ∧
    (sfOwnerBodySem
      ⟨fun s => s, "1", 3600, 120, 40, 20, "", none, none, none, fun _ => none, none,
        Except.ok (Json.obj []), CommitOutcome.committed, true⟩
      (canonicalKeyOf
        ⟨fun s => s, "1", 3600, 120, 40, 20, "", none, none, none, fun _ => none, none,
          Except.ok (Json.obj []), CommitOutcome.committed, true⟩ "q" [])).result
      = Except.error (OrchError.waitTimeout "ans:p1:q") ∧
    (get_rag_answer_cached
      ⟨fun s => s, "1", 3600, 120, 40, 20, "", none, none, none, fun _ => none, none,
        Except.ok (Json.obj []), CommitOutcome.committed, true⟩ "q" []).ragInvoked = false := by
  have h := C3_strict_only_amended
    ⟨fun s => s, "1", 3600, 120, 40, 20, "", none, none, none, fun _ => none, none,
      Except.ok (Json.obj []), CommitOutcome.committed, true⟩
    "q" [] rfl rfl rfl (fun i => rfl)
  refine ⟨(h.2.1 ⟨none, fun _ => none, 0⟩ rfl).2.2, ?_, h.1.2⟩
  rw [(h.2.2 ⟨none, fun _ => none, 0⟩ rfl).2.1]
  rfl

end SpecRag











